import Mathlib

/-!
# tf-operator, package `controller` (pkg/controller.v2)

A shallow embedding of `controller_tfjob.go` and `informer.go`:

* `tfJobFromUnstructured`, `unstructuredFromTFJob`, `GetTFJobFromKey`, `GetTFJobFromName`
  (informer.go),
* `AddTFJob`, `UpdateTFJob`, `DeletePdb`, `DeletePodsAndServices` (controller_tfjob.go).

The Go code is sequential and talks to collaborators through interfaces (the event
recorder, the pod and service controls, the policy client, the informer index) and through
package-level values (the unstructured converter, the validator, the scheme). Each
collaborator is a field of `TFJobController` or `Globals`. A collaborator whose answer
may depend on what happened before receives the history, i.e. the list of everything
recorded so far; every method takes the history `h` at its call and returns the entries it
appends to it. The recorder, the work queue and the in-repository helpers only leave an
entry.

Conventions.
* A Go `error` is `Option Error`, `none` being `nil`.
* A pointer that the code dereferences and that the Go types allow to be `nil` is an
  `Option`; dereferencing `none` ends the call with `Result.nilDeref`. This is done for
  `Spec.CleanPodPolicy` and for the job pointer produced by `tfJobFromUnstructured`. The job
  and pod pointers a method receives as arguments, and a cached `*Unstructured`, are taken
  to point to objects.
* logrus output has no influence on control flow or on the collaborators and is left out.
-/

namespace TFOperator

/-! ## Data model -/

/-- The Go type `tfv1alpha2.CleanPodPolicy`, a string type. -/
abbrev CleanPodPolicy := String

/-- Modelled from the spec: the constant `tfv1alpha2.CleanPodPolicyAll` of the API package,
the policy value `All` of §3. -/
def CleanPodPolicyAll : CleanPodPolicy := "All"

/-- Modelled from the spec: the constant `tfv1alpha2.CleanPodPolicyRunning` of the API
package, the policy value `Running` of §3. -/
def CleanPodPolicyRunning : CleanPodPolicy := "Running"

/-- Modelled from the spec: the constant `tfv1alpha2.CleanPodPolicyNone` of the API package,
the policy value `None` of §3. -/
def CleanPodPolicyNone : CleanPodPolicy := "None"

/-- The Kubernetes type `v1.PodPhase`, a string type. -/
abbrev PodPhase := String

/-- The Kubernetes constant `v1.PodRunning`. -/
def PodRunning : PodPhase := "Running"

/-- The Kubernetes constant `v1.EventTypeNormal`. -/
def EventTypeNormal : String := "Normal"

/-- The Kubernetes constant `v1.EventTypeWarning`. -/
def EventTypeWarning : String := "Warning"

/-- Reason of the event recorded for a payload that does not decode. -/
def FailedMarshalTFJobReason : String := "FailedMarshalTFJob"

/-- Reason of the event recorded before dependents of a terminated job are deleted. -/
def TerminatedTFJobReason : String := "TFJobTerminated"

/-- Modelled from the spec: the type `tfv1alpha2.TFJobCondition` of the API package, a
Condition of §3 (type, reason, message, timestamp). -/
structure TFJobCondition where
  Type_ : String
  Reason : String
  Message : String
  LastUpdateTime : Nat
deriving DecidableEq

/-- Modelled from the spec: the type `tfv1alpha2.TFJobSpec` of the API package: the clean-up
policy, a pointer that may be nil, and the training topology, which this package never
inspects. -/
structure TFJobSpec where
  CleanPodPolicy : Option CleanPodPolicy
  TFReplicaSpecs : List (String × String)
deriving DecidableEq

/-- Modelled from the spec: the type `tfv1alpha2.TFJobStatus` of the API package. -/
structure TFJobStatus where
  Conditions : List TFJobCondition
deriving DecidableEq

/-- Modelled from the spec: the type `tfv1alpha2.TFJob` of the API package, the Job of §3. -/
structure TFJob where
  Namespace : String
  Name : String
  Spec : TFJobSpec
  Status : TFJobStatus
deriving DecidableEq

/-- The part of `v1.PodStatus` the controller reads. -/
structure PodStatus where
  Phase : PodPhase
deriving DecidableEq

/-- The part of `v1.Pod` the controller reads. -/
structure Pod where
  Namespace : String
  Name : String
  Status : PodStatus
deriving DecidableEq

/-- The Kubernetes type `unstructured.Unstructured`: a generic attribute map
(`map[string]interface{}`), its values kept in serialised form. The controller hands the
map to the converter and never looks inside. -/
structure Unstructured where
  Object : List (String × String)
deriving DecidableEq

/-- A Go value of type `interface{}` as the informer hands it over: the nil interface, a
`*Unstructured`, or a value of some other dynamic type (named by `typeName`). -/
inductive Obj where
  | nil
  | unstructured (un : Unstructured)
  | other (typeName : String)
deriving DecidableEq

/-! ## Errors -/

/-- Error values. The first three are the package-level variables of informer.go, compared
by identity in the Go code. `status` is an error handed back by a collaborator;
`notFound` is what `k8serrors.IsNotFound` answers on it. `errorf` is a value freshly built
by `fmt.Errorf`. -/
inductive Error where
  | ErrGetFromKey
  | ErrNotExists
  | ErrFailedMarshal
  | status (notFound : Bool) (msg : String)
  | errorf (msg : String)
deriving DecidableEq

open Error (ErrGetFromKey ErrNotExists ErrFailedMarshal)

/-- The text of an error, Go's `err.Error()`, which `%v` prints. -/
def Error.text : Error → String
  | .ErrGetFromKey => "Failed to get TFJob from key"
  | .ErrNotExists => "The object is not found"
  | .ErrFailedMarshal => "Failed to marshal the object to TFJob"
  | .status _ msg => msg
  | .errorf msg => msg

/-- The Kubernetes predicate `k8serrors.IsNotFound`. -/
def IsNotFound : Error → Bool
  | .status notFound _ => notFound
  | _ => false

/-- Outcome of a call that can dereference a nil pointer. -/
inductive Result (α : Type) where
  | returned (a : α)
  | nilDeref
deriving DecidableEq

/-! ## Recorded history -/

/-- A call that leaves an entry in the history. -/
inductive Call where
  | DeletePod (ns name : String) (object : TFJob)
  | DeleteService (ns name : String) (object : TFJob)
  | PdbGet (ns name : String)
  | PdbDelete (ns name : String)
  | GetByKey (key : String)
  | tfJobFromUnstructured (obj : Obj)
  | Default (tfJob : TFJob)
  | updateTFJobConditions (tfJob : TFJob) (conditionType reason message : String)
  | unstructuredFromTFJob (obj : Obj) (tfJob : TFJob)
  | enqueueTFJob (obj : Obj)
deriving DecidableEq

/-- One entry of the history: an event handed to the recorder (the object is a `*TFJob`),
or a call together with the error it returned. -/
inductive Entry where
  | event (object : Option TFJob) (eventtype reason message : String)
  | call (c : Call) (err : Option Error)
deriving DecidableEq

/-- The history, oldest entry first. -/
abbrev Trace := List Entry

/-- Entry of a call that returned nil. -/
def Entry.ok (c : Call) : Entry := Entry.call c none

/-- Whether the entry is an event handed to the recorder. -/
def Entry.isEvent : Entry → Bool
  | .event _ _ _ _ => true
  | .call _ _ => false

/-- Whether the entry is a delete call (pod, service or disruption budget). -/
def Entry.isDelete : Entry → Bool
  | .call (.DeletePod _ _ _) _ => true
  | .call (.DeleteService _ _ _) _ => true
  | .call (.PdbDelete _ _) _ => true
  | _ => false

/-- Whether the entry is a call to `enqueueTFJob`. -/
def Entry.isEnqueue : Entry → Bool
  | .call (.enqueueTFJob _) _ => true
  | _ => false

/-- Whether the entry is a call of the decoder `tfJobFromUnstructured`. -/
def Entry.isDecode : Entry → Bool
  | .call (.tfJobFromUnstructured _) _ => true
  | _ => false

/-- Whether the entry is a call that returned an error. -/
def Entry.failed : Entry → Bool
  | .call _ (some _) => true
  | _ => false

/-! ## Collaborators -/

/-- The interface `PodControl`, as far as the controller calls it. -/
structure PodControlInterface where
  DeletePod : Trace → String → String → TFJob → Option Error

/-- The interface `ServiceControl`, as far as the controller calls it. -/
structure ServiceControlInterface where
  DeleteService : Trace → String → String → TFJob → Option Error

/-- The client `KubeClientSet.PolicyV1beta1().PodDisruptionBudgets(ns)`. `Get` also returns
the budget, which the controller discards. -/
structure PodDisruptionBudgetInterface where
  Get : Trace → String → String → Option Error
  Delete : Trace → String → String → Option Error

/-- The index of the informer, `TfJobInformer.GetIndexer()`: `GetByKey` answers the stored
item, whether the key exists, and an error. -/
structure Indexer where
  GetByKey : Trace → String → Obj × Bool × Option Error

/-- The fields of `TFJobController` the modelled methods use. -/
structure TFJobController where
  PodControl : PodControlInterface
  ServiceControl : ServiceControlInterface
  PodDisruptionBudgets : PodDisruptionBudgetInterface
  TfJobInformer : Indexer

/-- Package-level values and in-repository helpers whose source is outside the two files:
`runtime.DefaultUnstructuredConverter` (`FromUnstructured` answers the job it has filled
in and the error), `validation.ValidateAlphaTwoTFJobSpec`, `scheme.Scheme.Default`,
`updateTFJobConditions` with the two constants passed to it. -/
structure Globals where
  FromUnstructured : List (String × String) → TFJob × Option Error
  ToUnstructured : TFJob → List (String × String) × Option Error
  ValidateAlphaTwoTFJobSpec : TFJobSpec → Option Error
  Default : TFJob → TFJob
  updateTFJobConditions : TFJob → String → String → String → TFJob × Option Error
  TFJobCreated : String
  tfJobCreatedReason : String

/-! ## controller_tfjob.go: clean-up of pods and services -/

/-- The `for _, pod := range pods` loop of `DeletePodsAndServices`; `h` is the history when
the loop reaches the first pod of the list. -/
def deletePodsLoop (tc : TFJobController) (tfJob : TFJob) :
    Trace → List Pod → Result (Option Error) × Trace
  | _, [] => (Result.returned none, [])
  | h, pod :: rest =>
    match tfJob.Spec.CleanPodPolicy with
    | none => (Result.nilDeref, [])
    | some policy =>
      if policy = CleanPodPolicyRunning ∧ pod.Status.Phase ≠ PodRunning then
        deletePodsLoop tc tfJob h rest
      else
        let c1 := Call.DeletePod pod.Namespace pod.Name tfJob
        match tc.PodControl.DeletePod h pod.Namespace pod.Name tfJob with
        | some err => (Result.returned (some err), [Entry.call c1 (some err)])
        | none =>
          let c2 := Call.DeleteService pod.Namespace pod.Name tfJob
          match tc.ServiceControl.DeleteService (h ++ [Entry.ok c1]) pod.Namespace pod.Name
              tfJob with
          | some err => (Result.returned (some err), [Entry.ok c1, Entry.call c2 (some err)])
          | none =>
            let r := deletePodsLoop tc tfJob (h ++ [Entry.ok c1, Entry.ok c2]) rest
            (r.1, Entry.ok c1 :: Entry.ok c2 :: r.2)

/-- The event `DeletePodsAndServices` records before it deletes anything. -/
def terminatingPodsEvent (tfJob : TFJob) : Entry :=
  Entry.event (some tfJob) EventTypeNormal TerminatedTFJobReason
    "TFJob is terminated, deleting pods and services"

/-- The method `(tc *TFJobController) DeletePodsAndServices(tfJob, pods) error`. -/
def DeletePodsAndServices (tc : TFJobController) (h : Trace) (tfJob : TFJob)
    (pods : List Pod) : Result (Option Error) × Trace :=
  if pods.length = 0 then (Result.returned none, [])
  else
    let ev := terminatingPodsEvent tfJob
    match tfJob.Spec.CleanPodPolicy with
    | none => (Result.nilDeref, [ev])
    | some policy =>
      if policy = CleanPodPolicyNone then (Result.returned none, [ev])
      else
        let r := deletePodsLoop tc tfJob (h ++ [ev]) pods
        (r.1, ev :: r.2)

/-! ## controller_tfjob.go: the disruption budget -/

/-- The event `DeletePdb` records before it deletes the budget. -/
def terminatingPdbEvent (tfJob : TFJob) : Entry :=
  Entry.event (some tfJob) EventTypeNormal TerminatedTFJobReason
    "TFJob is terminated, deleting pdb"

/-- The method `(tc *TFJobController) DeletePdb(tfJob) error`. -/
def DeletePdb (tc : TFJobController) (h : Trace) (tfJob : TFJob) : Option Error × Trace :=
  let err := tc.PodDisruptionBudgets.Get h tfJob.Namespace tfJob.Name
  let get := Entry.call (Call.PdbGet tfJob.Namespace tfJob.Name) err
  if (match err with
      | some e => IsNotFound e
      | none => false) = true then (none, [get])
  else
    let ev := terminatingPdbEvent tfJob
    let del := Call.PdbDelete tfJob.Namespace tfJob.Name
    match tc.PodDisruptionBudgets.Delete (h ++ [get, ev]) tfJob.Namespace tfJob.Name with
    | some derr =>
      (some (Error.errorf ("unable to delete pdb: " ++ derr.text)),
        [get, ev, Entry.call del (some derr),
          Entry.event (some tfJob) EventTypeWarning "FailedDeletePdb"
            ("Error deleting: " ++ derr.text)])
    | none =>
      (none,
        [get, ev, Entry.ok del,
          Entry.event (some tfJob) EventTypeNormal "SuccessfulDeletePdb"
            ("Deleted pdb: " ++ tfJob.Name)])

/-! ## informer.go -/

/-- The function `tfJobFromUnstructured(obj) (*TFJob, error)`. The converter fills a fresh
`TFJob`; validation is only asked when the conversion returned no error. -/
def tfJobFromUnstructured (g : Globals) (obj : Obj) : Option TFJob × Option Error :=
  match obj with
  | Obj.unstructured un =>
    let r := g.FromUnstructured un.Object
    if r.2 ≠ none ∨ g.ValidateAlphaTwoTFJobSpec r.1.Spec ≠ none then
      (some r.1, some ErrFailedMarshal)
    else (some r.1, none)
  | _ => (none, some ErrGetFromKey)

/-- The function `unstructuredFromTFJob(obj, tfJob) error`; the first component is `obj`
after the call. The map is assigned whatever the converter answers, error or not. -/
def unstructuredFromTFJob (g : Globals) (obj : Obj) (tfJob : TFJob) : Obj × Option Error :=
  match obj with
  | Obj.unstructured _ =>
    let r := g.ToUnstructured tfJob
    (Obj.unstructured ⟨r.1⟩, r.2)
  | o => (o, some ErrGetFromKey)

/-- The method `(tc *TFJobController) GetTFJobFromKey(key) (*TFJob, error)`. -/
def GetTFJobFromKey (g : Globals) (tc : TFJobController) (h : Trace) (key : String) :
    (Option TFJob × Option Error) × Trace :=
  let r := tc.TfJobInformer.GetByKey h key
  let get := Entry.call (Call.GetByKey key) r.2.2
  if r.2.2 ≠ none then ((none, some ErrGetFromKey), [get])
  else if r.2.1 = false then ((none, some ErrNotExists), [get])
  else
    let d := tfJobFromUnstructured g r.1
    let dec := Entry.call (Call.tfJobFromUnstructured r.1) d.2
    if d.2 ≠ none then ((none, d.2), [get, dec])
    else ((d.1, none), [get, dec])

/-- The method `(tc *TFJobController) GetTFJobFromName(namespace, name) (*TFJob, error)`. -/
def GetTFJobFromName (g : Globals) (tc : TFJobController) (h : Trace)
    (namespace_ name : String) : (Option TFJob × Option Error) × Trace :=
  GetTFJobFromKey g tc h (namespace_ ++ "/" ++ name)

/-! ## controller_tfjob.go: event handlers -/

/-- The method `(tc *TFJobController) AddTFJob(obj)`. The first component is the payload
`obj` when the handler is done. -/
def AddTFJob (g : Globals) (obj : Obj) : Result Obj × Trace :=
  let d := tfJobFromUnstructured g obj
  let dec := Entry.call (Call.tfJobFromUnstructured obj) d.2
  match d.2 with
  | some err =>
    if err = ErrFailedMarshal then
      let errMsg := "Failed to unmarshal the object to TFJob object: " ++ err.text
      (Result.returned obj,
        [dec, Entry.event d.1 EventTypeWarning FailedMarshalTFJobReason errMsg])
    else (Result.returned obj, [dec])
  | none =>
    match d.1 with
    | none => (Result.nilDeref, [dec])
    | some tfJob0 =>
      let tfJob1 := g.Default tfJob0
      let dflt := Entry.ok (Call.Default tfJob0)
      let msg := "TFJob " ++ tfJob1.Name ++ " is created."
      let u := g.updateTFJobConditions tfJob1 g.TFJobCreated g.tfJobCreatedReason msg
      let upd := Entry.call
        (Call.updateTFJobConditions tfJob1 g.TFJobCreated g.tfJobCreatedReason msg) u.2
      if u.2 ≠ none then (Result.returned obj, [dec, dflt, upd])
      else
        let w := unstructuredFromTFJob g obj u.1
        let enc := Entry.call (Call.unstructuredFromTFJob obj u.1) w.2
        if w.2 ≠ none then (Result.returned w.1, [dec, dflt, upd, enc])
        else (Result.returned w.1, [dec, dflt, upd, enc, Entry.ok (Call.enqueueTFJob w.1)])

/-- The method `(tc *TFJobController) UpdateTFJob(old, cur)`. -/
def UpdateTFJob (g : Globals) (old cur : Obj) : Result Unit × Trace :=
  let d := tfJobFromUnstructured g old
  let dec := Entry.call (Call.tfJobFromUnstructured old) d.2
  if d.2 ≠ none then (Result.returned (), [dec])
  else
    match d.1 with
    | none => (Result.nilDeref, [dec])
    | some _ => (Result.returned (), [dec, Entry.ok (Call.enqueueTFJob cur)])

/-! ## The clean-up contract in the words of the specification -/

/-- Whether the policy selects a pod for deletion: under `Running` exactly the pods whose
phase is Running, under any other deleting policy every pod. -/
def selectedBy (policy : CleanPodPolicy) (pod : Pod) : Bool :=
  if policy = CleanPodPolicyRunning then decide (pod.Status.Phase = PodRunning) else true

/-- The delete calls of a run in which every call succeeds: for each selected pod, in input
order, `DeletePod` and then `DeleteService` with the namespace and name of the pod. -/
def plannedCalls (tfJob : TFJob) (policy : CleanPodPolicy) (pods : List Pod) : List Call :=
  ((pods.filter (selectedBy policy)).map fun pod =>
    [Call.DeletePod pod.Namespace pod.Name tfJob,
      Call.DeleteService pod.Namespace pod.Name tfJob]).flatten

/-- What the collaborators of the controller answer to a delete call asked at history
`h`: a `DeletePod` is put to `tc.PodControl`, a `DeleteService` to `tc.ServiceControl`. -/
def answer (tc : TFJobController) (h : Trace) : Call → Option Error
  | Call.DeletePod ns name object => tc.PodControl.DeletePod h ns name object
  | Call.DeleteService ns name object => tc.ServiceControl.DeleteService h ns name object
  | _ => none

/-- Whether the collaborators answer nil to every call of the list, the calls being asked
in order from history `h` and each successful call leaving its entry in the history. -/
def allSucceed (tc : TFJobController) : Trace → List Call → Bool
  | _, [] => true
  | h, c :: rest => (answer tc h c).isNone && allSucceed tc (h ++ [Entry.ok c]) rest

/-- The informer index of a cache that holds no item: every key is reported absent, without
error (the answer of the client-go store for a key it does not hold). -/
def emptyIndexer : Indexer := ⟨fun _ _ => (Obj.nil, false, none)⟩

/-! ## Concrete inputs -/

/-- A controller whose collaborators always succeed and whose cache is empty. -/
def okController : TFJobController :=
  ⟨⟨fun _ _ _ _ => none⟩, ⟨fun _ _ _ _ => none⟩, ⟨fun _ _ _ => none, fun _ _ _ => none⟩,
    emptyIndexer⟩

/-- The job "ns/train-1" with the given clean-up policy pointer. -/
def trainJob (policy : Option CleanPodPolicy) : TFJob :=
  ⟨"ns", "train-1", ⟨policy, []⟩, ⟨[]⟩⟩

/-- The pods of the end-to-end scenario: train-1-w0 is Running, train-1-w1 has Failed. -/
def trainPods : List Pod :=
  [⟨"ns", "train-1-w0", ⟨"Running"⟩⟩, ⟨"ns", "train-1-w1", ⟨"Failed"⟩⟩]

/-- The error a pod control answers when the API server times out. -/
def timeoutError : Error := Error.status false "context deadline exceeded"

/-- A controller whose pod control fails on the pod train-1-w1 and succeeds elsewhere. -/
def w1FailingController : TFJobController :=
  ⟨⟨fun _ _ name _ => if name = "train-1-w1" then some timeoutError else none⟩,
    ⟨fun _ _ _ _ => none⟩, ⟨fun _ _ _ => none, fun _ _ _ => none⟩, emptyIndexer⟩

/-- A controller whose service control fails on the service train-1-w0 and succeeds
elsewhere, and whose pod control succeeds. -/
def w0ServiceFailingController : TFJobController :=
  ⟨⟨fun _ _ _ _ => none⟩,
    ⟨fun _ _ name _ => if name = "train-1-w0" then some timeoutError else none⟩,
    ⟨fun _ _ _ => none, fun _ _ _ => none⟩, emptyIndexer⟩

/-- Three pods of the job, all Running. -/
def threePods : List Pod :=
  [⟨"ns", "train-1-w0", ⟨"Running"⟩⟩, ⟨"ns", "train-1-w1", ⟨"Running"⟩⟩,
    ⟨"ns", "train-1-w2", ⟨"Running"⟩⟩]

/-- The answer of the API server for a budget that does not exist. -/
def notFoundError : Error := Error.status true "poddisruptionbudgets.policy not found"

/-- A controller in front of an API server that holds the budget until it is deleted: `Get`
finds the budget unless the history holds a successful `Delete` of it, and `Delete`
succeeds. -/
def pdbStoreController : TFJobController :=
  ⟨⟨fun _ _ _ _ => none⟩, ⟨fun _ _ _ _ => none⟩,
    ⟨fun h ns name => if Entry.ok (Call.PdbDelete ns name) ∈ h then some notFoundError else none,
      fun _ _ _ => none⟩,
    emptyIndexer⟩

/-- A controller whose existence query times out while `Delete` succeeds. -/
def getTimeoutController : TFJobController :=
  ⟨⟨fun _ _ _ _ => none⟩, ⟨fun _ _ _ _ => none⟩,
    ⟨fun _ _ _ => some timeoutError, fun _ _ _ => none⟩, emptyIndexer⟩

/-- A controller whose cache holds, under every key, an item that is not an
`*Unstructured`. -/
def podCacheController : TFJobController :=
  ⟨⟨fun _ _ _ _ => none⟩, ⟨fun _ _ _ _ => none⟩, ⟨fun _ _ _ => none, fun _ _ _ => none⟩,
    ⟨fun _ _ => (Obj.other "*v1.Pod", true, none)⟩⟩

/-- A small instance of the package-level collaborators. The converter reads the name,
the namespace, the policy and the replica specification off the map and fails when the
map has no name; validation rejects a spec without replica specifications; defaulting
sets an unset policy to Running; the condition helper appends the condition. -/
def sampleGlobals : Globals where
  FromUnstructured m :=
    (⟨(m.lookup "namespace").getD "", (m.lookup "name").getD "",
        ⟨m.lookup "cleanPodPolicy",
          match m.lookup "tfReplicaSpecs" with
          | some v => [("Worker", v)]
          | none => []⟩,
        ⟨[]⟩⟩,
      if (m.lookup "name").isSome then none else some (Error.status false "name is missing"))
  ToUnstructured tfJob :=
    ([("namespace", tfJob.Namespace), ("name", tfJob.Name)]
      ++ (match tfJob.Spec.CleanPodPolicy with
          | some policy => [("cleanPodPolicy", policy)]
          | none => [])
      ++ tfJob.Spec.TFReplicaSpecs.map fun kv => ("tfReplicaSpecs", kv.2), none)
  ValidateAlphaTwoTFJobSpec spec :=
    if spec.TFReplicaSpecs = [] then some (Error.errorf "TFJobSpec is not valid") else none
  Default tfJob :=
    match tfJob.Spec.CleanPodPolicy with
    | some _ => tfJob
    | none => { tfJob with Spec := ⟨some CleanPodPolicyRunning, tfJob.Spec.TFReplicaSpecs⟩ }
  updateTFJobConditions tfJob conditionType reason message :=
    ({ tfJob with Status := ⟨tfJob.Status.Conditions ++ [⟨conditionType, reason, message, 0⟩]⟩ },
      none)
  TFJobCreated := "Created"
  tfJobCreatedReason := "TFJobCreated"

/-- A payload that converts but has no replica specifications, so validation rejects it. -/
def noReplicasPayload : Unstructured :=
  ⟨[("namespace", "ns"), ("name", "train-1"), ("cleanPodPolicy", "All")]⟩

/-! ## Lemmas on the deletion loop -/

theorem plannedCalls_nil (tfJob : TFJob) (policy : CleanPodPolicy) :
    plannedCalls tfJob policy [] = [] := by
  simp [plannedCalls]

theorem plannedCalls_cons_selected (tfJob : TFJob) (policy : CleanPodPolicy) (pod : Pod)
    (rest : List Pod) (hs : selectedBy policy pod = true) :
    plannedCalls tfJob policy (pod :: rest)
      = Call.DeletePod pod.Namespace pod.Name tfJob
        :: Call.DeleteService pod.Namespace pod.Name tfJob
        :: plannedCalls tfJob policy rest := by
  simp [plannedCalls, List.filter_cons, hs]

theorem plannedCalls_cons_skipped (tfJob : TFJob) (policy : CleanPodPolicy) (pod : Pod)
    (rest : List Pod) (hs : selectedBy policy pod = false) :
    plannedCalls tfJob policy (pod :: rest) = plannedCalls tfJob policy rest := by
  simp [plannedCalls, List.filter_cons, hs]

theorem selectedBy_eq_false_iff (policy : CleanPodPolicy) (pod : Pod) :
    selectedBy policy pod = false
      ↔ policy = CleanPodPolicyRunning ∧ pod.Status.Phase ≠ PodRunning := by
  unfold selectedBy
  by_cases hp : policy = CleanPodPolicyRunning <;> simp [hp]

/-- With the policy pointer set, the loop either performs all planned calls and returns
nil, or stops at the first failing call, having performed a run of the planned calls, and
returns the error of that call. -/
theorem deletePodsLoop_shape (tc : TFJobController) (tfJob : TFJob) (policy : CleanPodPolicy)
    (hset : tfJob.Spec.CleanPodPolicy = some policy) (pods : List Pod) :
    ∀ h : Trace,
      deletePodsLoop tc tfJob h pods
          = (Result.returned none, (plannedCalls tfJob policy pods).map Entry.ok)
        ∨ ∃ pre c err,
            deletePodsLoop tc tfJob h pods
                = (Result.returned (some err), pre.map Entry.ok ++ [Entry.call c (some err)])
              ∧ pre ++ [c] <+: plannedCalls tfJob policy pods := by
  induction pods with
  | nil =>
    intro h
    left
    simp [deletePodsLoop, plannedCalls_nil]
  | cons pod rest ih =>
    intro h
    by_cases hskip : policy = CleanPodPolicyRunning ∧ pod.Status.Phase ≠ PodRunning
    · have hs : selectedBy policy pod = false := (selectedBy_eq_false_iff policy pod).2 hskip
      have hstep : deletePodsLoop tc tfJob h (pod :: rest) = deletePodsLoop tc tfJob h rest := by
        simp only [deletePodsLoop, hset]
        rw [if_pos hskip]
      rw [hstep, plannedCalls_cons_skipped tfJob policy pod rest hs]
      exact ih h
    · have hs : selectedBy policy pod = true := by
        cases hb : selectedBy policy pod with
        | true => rfl
        | false => exact absurd ((selectedBy_eq_false_iff policy pod).1 hb) hskip
      rw [plannedCalls_cons_selected tfJob policy pod rest hs]
      cases h1 : tc.PodControl.DeletePod h pod.Namespace pod.Name tfJob with
      | some err =>
        right
        refine ⟨[], Call.DeletePod pod.Namespace pod.Name tfJob, err, ?_, ?_⟩
        · simp only [deletePodsLoop, hset]
          rw [if_neg hskip]
          simp [h1]
        · simp
      | none =>
        cases h2 : tc.ServiceControl.DeleteService
            (h ++ [Entry.ok (Call.DeletePod pod.Namespace pod.Name tfJob)])
            pod.Namespace pod.Name tfJob with
        | some err =>
          right
          refine ⟨[Call.DeletePod pod.Namespace pod.Name tfJob],
            Call.DeleteService pod.Namespace pod.Name tfJob, err, ?_, ?_⟩
          · simp only [deletePodsLoop, hset]
            rw [if_neg hskip]
            simp [h1, h2]
          · simp
        | none =>
          have hstep : deletePodsLoop tc tfJob h (pod :: rest)
              = ((deletePodsLoop tc tfJob
                    (h ++ [Entry.ok (Call.DeletePod pod.Namespace pod.Name tfJob),
                      Entry.ok (Call.DeleteService pod.Namespace pod.Name tfJob)]) rest).1,
                  Entry.ok (Call.DeletePod pod.Namespace pod.Name tfJob)
                    :: Entry.ok (Call.DeleteService pod.Namespace pod.Name tfJob)
                    :: (deletePodsLoop tc tfJob
                    (h ++ [Entry.ok (Call.DeletePod pod.Namespace pod.Name tfJob),
                      Entry.ok (Call.DeleteService pod.Namespace pod.Name tfJob)]) rest).2) := by
            simp only [deletePodsLoop, hset]
            rw [if_neg hskip]
            simp [h1, h2]
          rw [hstep]
          rcases ih (h ++ [Entry.ok (Call.DeletePod pod.Namespace pod.Name tfJob),
              Entry.ok (Call.DeleteService pod.Namespace pod.Name tfJob)]) with hall | hfail
          · left
            rw [hall]
            simp
          · right
            obtain ⟨pre, c, err, hrun, hpre⟩ := hfail
            refine ⟨Call.DeletePod pod.Namespace pod.Name tfJob
              :: Call.DeleteService pod.Namespace pod.Name tfJob :: pre, c, err, ?_, ?_⟩
            · rw [hrun]
              simp
            · simpa using hpre

theorem DeletePodsAndServices_eq_loop (tc : TFJobController) (h : Trace) (tfJob : TFJob)
    (policy : CleanPodPolicy) (pods : List Pod)
    (hset : tfJob.Spec.CleanPodPolicy = some policy) (hpol : policy ≠ CleanPodPolicyNone)
    (hpods : pods ≠ []) :
    DeletePodsAndServices tc h tfJob pods
      = ((deletePodsLoop tc tfJob (h ++ [terminatingPodsEvent tfJob]) pods).1,
          terminatingPodsEvent tfJob
            :: (deletePodsLoop tc tfJob (h ++ [terminatingPodsEvent tfJob]) pods).2) := by
  have hlen : ¬ pods.length = 0 := by
    intro h0
    exact hpods (List.length_eq_zero.mp h0)
  unfold DeletePodsAndServices
  rw [if_neg hlen]
  simp only [hset]
  rw [if_neg hpol]

theorem DeletePodsAndServices_nil (tc : TFJobController) (h : Trace) (tfJob : TFJob) :
    DeletePodsAndServices tc h tfJob [] = (Result.returned none, []) := by
  simp [DeletePodsAndServices]

theorem deletePodsLoop_skip (tc : TFJobController) (tfJob : TFJob) (policy : CleanPodPolicy)
    (hset : tfJob.Spec.CleanPodPolicy = some policy) (h : Trace) (pod : Pod) (rest : List Pod)
    (hskip : policy = CleanPodPolicyRunning ∧ pod.Status.Phase ≠ PodRunning) :
    deletePodsLoop tc tfJob h (pod :: rest) = deletePodsLoop tc tfJob h rest := by
  simp only [deletePodsLoop, hset]
  rw [if_pos hskip]

theorem deletePodsLoop_pod_failed (tc : TFJobController) (tfJob : TFJob)
    (policy : CleanPodPolicy) (hset : tfJob.Spec.CleanPodPolicy = some policy) (h : Trace)
    (pod : Pod) (rest : List Pod) (err : Error)
    (hskip : ¬ (policy = CleanPodPolicyRunning ∧ pod.Status.Phase ≠ PodRunning))
    (h1 : tc.PodControl.DeletePod h pod.Namespace pod.Name tfJob = some err) :
    deletePodsLoop tc tfJob h (pod :: rest)
      = (Result.returned (some err),
          [Entry.call (Call.DeletePod pod.Namespace pod.Name tfJob) (some err)]) := by
  simp only [deletePodsLoop, hset]
  rw [if_neg hskip]
  simp [h1]

theorem deletePodsLoop_service_failed (tc : TFJobController) (tfJob : TFJob)
    (policy : CleanPodPolicy) (hset : tfJob.Spec.CleanPodPolicy = some policy) (h : Trace)
    (pod : Pod) (rest : List Pod) (err : Error)
    (hskip : ¬ (policy = CleanPodPolicyRunning ∧ pod.Status.Phase ≠ PodRunning))
    (h1 : tc.PodControl.DeletePod h pod.Namespace pod.Name tfJob = none)
    (h2 : tc.ServiceControl.DeleteService
        (h ++ [Entry.ok (Call.DeletePod pod.Namespace pod.Name tfJob)])
        pod.Namespace pod.Name tfJob = some err) :
    deletePodsLoop tc tfJob h (pod :: rest)
      = (Result.returned (some err),
          [Entry.ok (Call.DeletePod pod.Namespace pod.Name tfJob),
            Entry.call (Call.DeleteService pod.Namespace pod.Name tfJob) (some err)]) := by
  simp only [deletePodsLoop, hset]
  rw [if_neg hskip]
  simp [h1, h2]

theorem deletePodsLoop_both_ok (tc : TFJobController) (tfJob : TFJob)
    (policy : CleanPodPolicy) (hset : tfJob.Spec.CleanPodPolicy = some policy) (h : Trace)
    (pod : Pod) (rest : List Pod)
    (hskip : ¬ (policy = CleanPodPolicyRunning ∧ pod.Status.Phase ≠ PodRunning))
    (h1 : tc.PodControl.DeletePod h pod.Namespace pod.Name tfJob = none)
    (h2 : tc.ServiceControl.DeleteService
        (h ++ [Entry.ok (Call.DeletePod pod.Namespace pod.Name tfJob)])
        pod.Namespace pod.Name tfJob = none) :
    deletePodsLoop tc tfJob h (pod :: rest)
      = ((deletePodsLoop tc tfJob
            (h ++ [Entry.ok (Call.DeletePod pod.Namespace pod.Name tfJob),
              Entry.ok (Call.DeleteService pod.Namespace pod.Name tfJob)]) rest).1,
          Entry.ok (Call.DeletePod pod.Namespace pod.Name tfJob)
            :: Entry.ok (Call.DeleteService pod.Namespace pod.Name tfJob)
            :: (deletePodsLoop tc tfJob
                (h ++ [Entry.ok (Call.DeletePod pod.Namespace pod.Name tfJob),
                  Entry.ok (Call.DeleteService pod.Namespace pod.Name tfJob)]) rest).2) := by
  simp only [deletePodsLoop, hset]
  rw [if_neg hskip]
  simp [h1, h2]

theorem selectedBy_of_not_skip (policy : CleanPodPolicy) (pod : Pod)
    (hskip : ¬ (policy = CleanPodPolicyRunning ∧ pod.Status.Phase ≠ PodRunning)) :
    selectedBy policy pod = true := by
  cases hb : selectedBy policy pod with
  | true => rfl
  | false => exact absurd ((selectedBy_eq_false_iff policy pod).1 hb) hskip

theorem allSucceed_cons_cons (tc : TFJobController) (h : Trace) (c1 c2 : Call)
    (rest : List Call) :
    allSucceed tc h (c1 :: c2 :: rest) = true
      ↔ answer tc h c1 = none ∧ answer tc (h ++ [Entry.ok c1]) c2 = none
        ∧ allSucceed tc (h ++ [Entry.ok c1, Entry.ok c2]) rest = true := by
  simp [allSucceed, Bool.and_eq_true, Option.isNone_iff_eq_none, List.append_assoc]

/-- Collaborators that answer nil to every DeletePod and every DeleteService, at every
history, answer nil to every call of any list. -/
theorem allSucceed_of_always_nil (tc : TFJobController)
    (hpod : ∀ h ns name object, tc.PodControl.DeletePod h ns name object = none)
    (hsvc : ∀ h ns name object, tc.ServiceControl.DeleteService h ns name object = none)
    (calls : List Call) :
    ∀ h : Trace, allSucceed tc h calls = true := by
  induction calls with
  | nil =>
    intro h
    rfl
  | cons c rest ih =>
    intro h
    cases c <;> simp [allSucceed, answer, hpod, hsvc, ih]

/-- When the collaborators answer nil to every planned call, asked in order, the loop
performs exactly the planned calls and returns nil. -/
theorem deletePodsLoop_all_succeed (tc : TFJobController) (tfJob : TFJob)
    (policy : CleanPodPolicy) (hset : tfJob.Spec.CleanPodPolicy = some policy)
    (pods : List Pod) :
    ∀ h : Trace, allSucceed tc h (plannedCalls tfJob policy pods) = true →
      deletePodsLoop tc tfJob h pods
        = (Result.returned none, (plannedCalls tfJob policy pods).map Entry.ok) := by
  induction pods with
  | nil =>
    intro h _
    simp [deletePodsLoop, plannedCalls_nil]
  | cons pod rest ih =>
    intro h hall
    by_cases hskip : policy = CleanPodPolicyRunning ∧ pod.Status.Phase ≠ PodRunning
    · have hs : selectedBy policy pod = false := (selectedBy_eq_false_iff policy pod).2 hskip
      rw [plannedCalls_cons_skipped tfJob policy pod rest hs] at hall ⊢
      rw [deletePodsLoop_skip tc tfJob policy hset h pod rest hskip]
      exact ih h hall
    · have hs := selectedBy_of_not_skip policy pod hskip
      rw [plannedCalls_cons_selected tfJob policy pod rest hs] at hall ⊢
      obtain ⟨h1, h2, h3⟩ := (allSucceed_cons_cons tc h _ _ _).1 hall
      rw [deletePodsLoop_both_ok tc tfJob policy hset h pod rest hskip h1 h2, ih _ h3]
      simp

/-- When the planned calls split into calls that the collaborators answer with nil, asked
in order, and a next call that they answer with an error, the loop performs the former,
then the failing call, and returns its error; nothing of what follows is asked. -/
theorem deletePodsLoop_first_failure (tc : TFJobController) (tfJob : TFJob)
    (policy : CleanPodPolicy) (hset : tfJob.Spec.CleanPodPolicy = some policy)
    (pods : List Pod) :
    ∀ (h : Trace) (pre : List Call) (c : Call) (post : List Call) (err : Error),
      plannedCalls tfJob policy pods = pre ++ c :: post →
      allSucceed tc h pre = true →
      answer tc (h ++ pre.map Entry.ok) c = some err →
      deletePodsLoop tc tfJob h pods
        = (Result.returned (some err), pre.map Entry.ok ++ [Entry.call c (some err)]) := by
  induction pods with
  | nil =>
    intro h pre c post err hsplit _ _
    rw [plannedCalls_nil] at hsplit
    simp at hsplit
  | cons pod rest ih =>
    intro h pre c post err hsplit hpre hc
    by_cases hskip : policy = CleanPodPolicyRunning ∧ pod.Status.Phase ≠ PodRunning
    · have hs : selectedBy policy pod = false := (selectedBy_eq_false_iff policy pod).2 hskip
      rw [plannedCalls_cons_skipped tfJob policy pod rest hs] at hsplit
      rw [deletePodsLoop_skip tc tfJob policy hset h pod rest hskip]
      exact ih h pre c post err hsplit hpre hc
    · have hs := selectedBy_of_not_skip policy pod hskip
      rw [plannedCalls_cons_selected tfJob policy pod rest hs] at hsplit
      match pre, hsplit, hpre, hc with
      | [], hsplit, _, hc =>
        simp only [List.nil_append, List.cons.injEq] at hsplit
        obtain ⟨hc1, _⟩ := hsplit
        subst hc1
        simp only [List.map_nil, List.append_nil, answer] at hc
        rw [deletePodsLoop_pod_failed tc tfJob policy hset h pod rest err hskip hc]
        simp
      | [x], hsplit, hpre, hc =>
        simp only [List.cons_append, List.nil_append, List.cons.injEq] at hsplit
        obtain ⟨hx, hc2, _⟩ := hsplit
        subst hx
        subst hc2
        have h1 : tc.PodControl.DeletePod h pod.Namespace pod.Name tfJob = none := by
          simpa [allSucceed, answer, Option.isNone_iff_eq_none] using hpre
        simp only [List.map_cons, List.map_nil, answer] at hc
        rw [deletePodsLoop_service_failed tc tfJob policy hset h pod rest err hskip h1 hc]
        simp
      | x :: y :: pre2, hsplit, hpre, hc =>
        simp only [List.cons_append, List.cons.injEq] at hsplit
        obtain ⟨hx, hy, hrest⟩ := hsplit
        subst hx
        subst hy
        obtain ⟨h1, h2, h3⟩ := (allSucceed_cons_cons tc h _ _ _).1 hpre
        have hc2 : answer tc
            ((h ++ [Entry.ok (Call.DeletePod pod.Namespace pod.Name tfJob),
              Entry.ok (Call.DeleteService pod.Namespace pod.Name tfJob)])
              ++ pre2.map Entry.ok) c = some err := by
          simpa [List.append_assoc] using hc
        rw [deletePodsLoop_both_ok tc tfJob policy hset h pod rest hskip h1 h2,
          ih _ pre2 c post err hrest h3 hc2]
        simp

/-- A list of calls that the collaborators do not all answer with nil splits at a first
call answered with an error. -/
theorem allSucceed_false_split (tc : TFJobController) (calls : List Call) :
    ∀ h : Trace, allSucceed tc h calls = false →
      ∃ pre c post err, calls = pre ++ c :: post ∧ allSucceed tc h pre = true
        ∧ answer tc (h ++ pre.map Entry.ok) c = some err := by
  induction calls with
  | nil =>
    intro h hfalse
    simp [allSucceed] at hfalse
  | cons c rest ih =>
    intro h hfalse
    cases hc : answer tc h c with
    | some err =>
      exact ⟨[], c, rest, err, rfl, rfl, by simpa using hc⟩
    | none =>
      have hrest : allSucceed tc (h ++ [Entry.ok c]) rest = false := by
        simpa [allSucceed, hc] using hfalse
      obtain ⟨pre, c2, post, err, hsplit, hpre, hc2⟩ := ih _ hrest
      refine ⟨c :: pre, c2, post, err, ?_, ?_, ?_⟩
      · rw [hsplit]
        rfl
      · simp [allSucceed, hc, hpre]
      · simpa [List.append_assoc] using hc2

/-! ## Clean-up of pods and services -/

/-- C1: for a job whose CleanPodPolicy is set to a value other than None and a non-empty
pod list, if the pod control and the service control answer nil to every planned call,
asked in order after the terminating event, then DeletePodsAndServices returns nil and,
after the terminating event, performs exactly the planned calls: for each selected pod in
input order DeletePod and then DeleteService with the namespace and name of that pod, and
nothing for an unselected pod. Under Running a pod is selected iff its phase is Running;
under All every pod is selected. -/
theorem DeletePodsAndServices_deletes_selected (tc : TFJobController) (h : Trace)
    (tfJob : TFJob) (policy : CleanPodPolicy) (pods : List Pod)
    (hset : tfJob.Spec.CleanPodPolicy = some policy) (hpol : policy ≠ CleanPodPolicyNone)
    (hpods : pods ≠ [])
    (hok : allSucceed tc (h ++ [terminatingPodsEvent tfJob])
      (plannedCalls tfJob policy pods) = true) :
    DeletePodsAndServices tc h tfJob pods
        = (Result.returned none,
            terminatingPodsEvent tfJob :: (plannedCalls tfJob policy pods).map Entry.ok)
      ∧ (policy = CleanPodPolicyRunning →
          ∀ pod : Pod, selectedBy policy pod = true ↔ pod.Status.Phase = PodRunning)
      ∧ (policy = CleanPodPolicyAll → ∀ pod : Pod, selectedBy policy pod = true) := by
  have heq := DeletePodsAndServices_eq_loop tc h tfJob policy pods hset hpol hpods
  refine ⟨?_, ?_, ?_⟩
  · rw [heq, deletePodsLoop_all_succeed tc tfJob policy hset pods _ hok]
  · intro hr pod
    simp [selectedBy, hr]
  · intro ha pod
    have hne : policy ≠ CleanPodPolicyRunning := by
      rw [ha]
      decide
    simp [selectedBy, hne]

/-- Witness of C1, the end-to-end scenario: policy Running, pods train-1-w0 (Running) and
train-1-w1 (Failed), collaborators that answer nil to every call. The run returns nil and
deletes the pod and the service train-1-w0 only. -/
theorem DeletePodsAndServices_deletes_selected_witness :
    DeletePodsAndServices okController [] (trainJob (some CleanPodPolicyRunning)) trainPods
      = (Result.returned none,
          [terminatingPodsEvent (trainJob (some CleanPodPolicyRunning)),
            Entry.ok (Call.DeletePod "ns" "train-1-w0" (trainJob (some CleanPodPolicyRunning))),
            Entry.ok
              (Call.DeleteService "ns" "train-1-w0" (trainJob (some CleanPodPolicyRunning)))]) :=
  (DeletePodsAndServices_deletes_selected okController []
    (trainJob (some CleanPodPolicyRunning)) CleanPodPolicyRunning trainPods rfl (by decide)
    (by decide) (by decide)).1

/-- C2: for a job with CleanPodPolicy None and a non-empty pod list, whatever the phases,
DeletePodsAndServices returns nil and records exactly one entry: the Normal event with
reason TFJobTerminated. It issues no DeletePod and no DeleteService call. -/
theorem DeletePodsAndServices_policy_none (tc : TFJobController) (h : Trace) (tfJob : TFJob)
    (pods : List Pod) (hset : tfJob.Spec.CleanPodPolicy = some CleanPodPolicyNone)
    (hpods : pods ≠ []) :
    DeletePodsAndServices tc h tfJob pods
        = (Result.returned none,
            [Entry.event (some tfJob) EventTypeNormal TerminatedTFJobReason
              "TFJob is terminated, deleting pods and services"])
      ∧ ((DeletePodsAndServices tc h tfJob pods).2.filter Entry.isDelete).length = 0
      ∧ ((DeletePodsAndServices tc h tfJob pods).2.filter Entry.isEvent).length = 1 := by
  have hlen : ¬ pods.length = 0 := by
    intro h0
    exact hpods (List.length_eq_zero.mp h0)
  have hrun : DeletePodsAndServices tc h tfJob pods
      = (Result.returned none,
          [Entry.event (some tfJob) EventTypeNormal TerminatedTFJobReason
            "TFJob is terminated, deleting pods and services"]) := by
    unfold DeletePodsAndServices
    rw [if_neg hlen]
    simp [hset, terminatingPodsEvent]
  rw [hrun]
  simp [Entry.isDelete, Entry.isEvent]

/-- Witness of C2: policy None on the two pods of the scenario. -/
theorem DeletePodsAndServices_policy_none_witness :
    DeletePodsAndServices okController [] (trainJob (some CleanPodPolicyNone)) trainPods
      = (Result.returned none,
          [Entry.event (some (trainJob (some CleanPodPolicyNone))) "Normal" "TFJobTerminated"
            "TFJob is terminated, deleting pods and services"]) :=
  (DeletePodsAndServices_policy_none okController [] (trainJob (some CleanPodPolicyNone))
    trainPods rfl (by decide)).1

/-- C3: for a job with a set policy other than None and any pod list, let the planned
calls split into calls that the pod and service controls answer with nil, asked in order
after the terminating event, and a next call that they answer with an error: the first
failing call. Then DeletePodsAndServices performs the former, then the failing call and
nothing after it, and returns exactly the error of that call; what it performs is an
initial segment of the planned calls, the calls of the all-success run. Such a first failing
call exists whenever the collaborators do not answer nil to every planned call. -/
theorem DeletePodsAndServices_aborts_at_first_failure (tc : TFJobController) (h : Trace)
    (tfJob : TFJob) (policy : CleanPodPolicy) (pods : List Pod)
    (hset : tfJob.Spec.CleanPodPolicy = some policy) (hpol : policy ≠ CleanPodPolicyNone) :
    (∀ (pre : List Call) (c : Call) (post : List Call) (err : Error),
        plannedCalls tfJob policy pods = pre ++ c :: post →
        allSucceed tc (h ++ [terminatingPodsEvent tfJob]) pre = true →
        answer tc (h ++ [terminatingPodsEvent tfJob] ++ pre.map Entry.ok) c = some err →
        DeletePodsAndServices tc h tfJob pods
          = (Result.returned (some err),
              terminatingPodsEvent tfJob :: (pre.map Entry.ok ++ [Entry.call c (some err)])))
      ∧ (allSucceed tc (h ++ [terminatingPodsEvent tfJob])
            (plannedCalls tfJob policy pods) = false →
          ∃ pre c post err,
            plannedCalls tfJob policy pods = pre ++ c :: post
              ∧ allSucceed tc (h ++ [terminatingPodsEvent tfJob]) pre = true
              ∧ answer tc (h ++ [terminatingPodsEvent tfJob] ++ pre.map Entry.ok) c = some err
              ∧ DeletePodsAndServices tc h tfJob pods
                = (Result.returned (some err),
                    terminatingPodsEvent tfJob
                      :: (pre.map Entry.ok ++ [Entry.call c (some err)]))) := by
  have hmain : ∀ (pre : List Call) (c : Call) (post : List Call) (err : Error),
      plannedCalls tfJob policy pods = pre ++ c :: post →
      allSucceed tc (h ++ [terminatingPodsEvent tfJob]) pre = true →
      answer tc (h ++ [terminatingPodsEvent tfJob] ++ pre.map Entry.ok) c = some err →
      DeletePodsAndServices tc h tfJob pods
        = (Result.returned (some err),
            terminatingPodsEvent tfJob
              :: (pre.map Entry.ok ++ [Entry.call c (some err)])) := by
    intro pre c post err hsplit hpre hc
    have hpods : pods ≠ [] := by
      intro hnil
      rw [hnil, plannedCalls_nil] at hsplit
      simp at hsplit
    rw [DeletePodsAndServices_eq_loop tc h tfJob policy pods hset hpol hpods,
      deletePodsLoop_first_failure tc tfJob policy hset pods _ pre c post err hsplit hpre hc]
  refine ⟨hmain, ?_⟩
  intro hfalse
  obtain ⟨pre, c, post, err, hsplit, hpre, hc⟩ :=
    allSucceed_false_split tc (plannedCalls tfJob policy pods) _ hfalse
  exact ⟨pre, c, post, err, hsplit, hpre, hc, hmain pre c post err hsplit hpre hc⟩

/-- Witness of C3: policy All, three Running pods. When DeletePod fails on train-1-w1, the
run deletes pod and service train-1-w0, attempts the pod train-1-w1, returns its error,
and touches neither the service train-1-w1 nor train-1-w2. When DeleteService fails on
train-1-w0, the run deletes the pod train-1-w0, attempts its service, returns that error
and touches no later pod. -/
theorem DeletePodsAndServices_aborts_at_first_failure_witness :
    DeletePodsAndServices w1FailingController [] (trainJob (some CleanPodPolicyAll)) threePods
        = (Result.returned (some timeoutError),
            [terminatingPodsEvent (trainJob (some CleanPodPolicyAll)),
              Entry.ok (Call.DeletePod "ns" "train-1-w0" (trainJob (some CleanPodPolicyAll))),
              Entry.ok (Call.DeleteService "ns" "train-1-w0" (trainJob (some CleanPodPolicyAll))),
              Entry.call (Call.DeletePod "ns" "train-1-w1" (trainJob (some CleanPodPolicyAll)))
                (some timeoutError)])
      ∧ DeletePodsAndServices w0ServiceFailingController []
          (trainJob (some CleanPodPolicyAll)) threePods
        = (Result.returned (some timeoutError),
            [terminatingPodsEvent (trainJob (some CleanPodPolicyAll)),
              Entry.ok (Call.DeletePod "ns" "train-1-w0" (trainJob (some CleanPodPolicyAll))),
              Entry.call
                (Call.DeleteService "ns" "train-1-w0" (trainJob (some CleanPodPolicyAll)))
                (some timeoutError)]) :=
  ⟨(DeletePodsAndServices_aborts_at_first_failure w1FailingController []
      (trainJob (some CleanPodPolicyAll)) CleanPodPolicyAll threePods rfl (by decide)).1
      [Call.DeletePod "ns" "train-1-w0" (trainJob (some CleanPodPolicyAll)),
        Call.DeleteService "ns" "train-1-w0" (trainJob (some CleanPodPolicyAll))]
      (Call.DeletePod "ns" "train-1-w1" (trainJob (some CleanPodPolicyAll)))
      [Call.DeleteService "ns" "train-1-w1" (trainJob (some CleanPodPolicyAll)),
        Call.DeletePod "ns" "train-1-w2" (trainJob (some CleanPodPolicyAll)),
        Call.DeleteService "ns" "train-1-w2" (trainJob (some CleanPodPolicyAll))]
      timeoutError (by decide) (by decide) (by decide),
    (DeletePodsAndServices_aborts_at_first_failure w0ServiceFailingController []
      (trainJob (some CleanPodPolicyAll)) CleanPodPolicyAll threePods rfl (by decide)).1
      [Call.DeletePod "ns" "train-1-w0" (trainJob (some CleanPodPolicyAll))]
      (Call.DeleteService "ns" "train-1-w0" (trainJob (some CleanPodPolicyAll)))
      [Call.DeletePod "ns" "train-1-w1" (trainJob (some CleanPodPolicyAll)),
        Call.DeleteService "ns" "train-1-w1" (trainJob (some CleanPodPolicyAll)),
        Call.DeletePod "ns" "train-1-w2" (trainJob (some CleanPodPolicyAll)),
        Call.DeleteService "ns" "train-1-w2" (trainJob (some CleanPodPolicyAll))]
      timeoutError (by decide) (by decide) (by decide)⟩

/-- C10: with an empty pod list DeletePodsAndServices returns nil and records nothing,
whatever the policy pointer of the job is, nil included. The call ends in a nil
dereference exactly when the pod list is non-empty and CleanPodPolicy is nil, and then the
only entry recorded is the terminating event: no delete call is made. -/
theorem DeletePodsAndServices_nil_policy (tc : TFJobController) (h : Trace) (tfJob : TFJob) :
    DeletePodsAndServices tc h tfJob [] = (Result.returned none, [])
      ∧ (∀ pods : List Pod,
          (DeletePodsAndServices tc h tfJob pods).1 = Result.nilDeref
            ↔ pods ≠ [] ∧ tfJob.Spec.CleanPodPolicy = none)
      ∧ (∀ pods : List Pod, pods ≠ [] → tfJob.Spec.CleanPodPolicy = none →
          DeletePodsAndServices tc h tfJob pods
            = (Result.nilDeref, [terminatingPodsEvent tfJob])) := by
  have hnone : ∀ pods : List Pod, pods ≠ [] → tfJob.Spec.CleanPodPolicy = none →
      DeletePodsAndServices tc h tfJob pods
        = (Result.nilDeref, [terminatingPodsEvent tfJob]) := by
    intro pods hpods hnil
    have hlen : ¬ pods.length = 0 := by
      intro h0
      exact hpods (List.length_eq_zero.mp h0)
    unfold DeletePodsAndServices
    rw [if_neg hlen]
    simp [hnil]
  refine ⟨DeletePodsAndServices_nil tc h tfJob, ?_, hnone⟩
  intro pods
  constructor
  · intro hres
    by_cases hpods : pods = []
    · rw [hpods, DeletePodsAndServices_nil] at hres
      simp at hres
    · refine ⟨hpods, ?_⟩
      cases hset : tfJob.Spec.CleanPodPolicy with
      | none => rfl
      | some policy =>
        exfalso
        by_cases hpol : policy = CleanPodPolicyNone
        · have hlen : ¬ pods.length = 0 := by
            intro h0
            exact hpods (List.length_eq_zero.mp h0)
          unfold DeletePodsAndServices at hres
          rw [if_neg hlen] at hres
          simp [hset, hpol] at hres
        · rw [DeletePodsAndServices_eq_loop tc h tfJob policy pods hset hpol hpods] at hres
          rcases deletePodsLoop_shape tc tfJob policy hset pods
              (h ++ [terminatingPodsEvent tfJob]) with hall | ⟨pre, c, err, hrun, _⟩
          · rw [hall] at hres
            simp at hres
          · rw [hrun] at hres
            simp at hres
  · intro hboth
    rw [hnone pods hboth.1 hboth.2]

/-- Witness of C10: a job without policy. On no pods the call returns nil and records
nothing; on the two pods of the scenario it ends in a nil dereference after the event. -/
theorem DeletePodsAndServices_nil_policy_witness :
    DeletePodsAndServices okController [] (trainJob none) [] = (Result.returned none, [])
      ∧ DeletePodsAndServices okController [] (trainJob none) trainPods
        = (Result.nilDeref, [terminatingPodsEvent (trainJob none)]) :=
  ⟨(DeletePodsAndServices_nil_policy okController [] (trainJob none)).1,
    (DeletePodsAndServices_nil_policy okController [] (trainJob none)).2.2 trainPods
      (by decide) rfl⟩

/-! ## The disruption budget -/

/-- C4: if the existence query for the budget named like the job, in the namespace of the
job, reports not-found, DeletePdb returns nil and records the query only: no Delete call
and no event. This holds at every history; in particular, when a first call has deleted
the budget and the query then reports not-found, the second call returns nil without any
delete attempt. -/
theorem DeletePdb_not_found_is_noop (tc : TFJobController) (h : Trace) (tfJob : TFJob) :
    (∀ e : Error, tc.PodDisruptionBudgets.Get h tfJob.Namespace tfJob.Name = some e →
        IsNotFound e = true →
        DeletePdb tc h tfJob
            = (none, [Entry.call (Call.PdbGet tfJob.Namespace tfJob.Name) (some e)])
          ∧ ((DeletePdb tc h tfJob).2.filter Entry.isDelete).length = 0
          ∧ ((DeletePdb tc h tfJob).2.filter Entry.isEvent).length = 0)
      ∧ (∀ e : Error,
          Entry.ok (Call.PdbDelete tfJob.Namespace tfJob.Name) ∈ (DeletePdb tc h tfJob).2 →
          tc.PodDisruptionBudgets.Get (h ++ (DeletePdb tc h tfJob).2) tfJob.Namespace
              tfJob.Name = some e →
          IsNotFound e = true →
          DeletePdb tc (h ++ (DeletePdb tc h tfJob).2) tfJob
              = (none, [Entry.call (Call.PdbGet tfJob.Namespace tfJob.Name) (some e)])
            ∧ ((DeletePdb tc (h ++ (DeletePdb tc h tfJob).2) tfJob).2.filter
                Entry.isDelete).length = 0) := by
  have key : ∀ (h0 : Trace) (e : Error),
      tc.PodDisruptionBudgets.Get h0 tfJob.Namespace tfJob.Name = some e →
      IsNotFound e = true →
      DeletePdb tc h0 tfJob
        = (none, [Entry.call (Call.PdbGet tfJob.Namespace tfJob.Name) (some e)]) := by
    intro h0 e hget hnf
    simp [DeletePdb, hget, hnf]
  constructor
  · intro e hget hnf
    rw [key h e hget hnf]
    simp [Entry.isDelete, Entry.isEvent]
  · intro e _ hget hnf
    rw [key _ e hget hnf]
    simp [Entry.isDelete]

/-- Witness of C4: against a server that holds the budget until it is deleted, the first
call deletes the budget and the second call, made on the history the first one left,
returns nil having recorded the not-found query only. -/
theorem DeletePdb_not_found_is_noop_witness :
    Entry.ok (Call.PdbDelete "ns" "train-1")
        ∈ (DeletePdb pdbStoreController [] (trainJob (some CleanPodPolicyAll))).2
      ∧ DeletePdb pdbStoreController
          ([] ++ (DeletePdb pdbStoreController [] (trainJob (some CleanPodPolicyAll))).2)
          (trainJob (some CleanPodPolicyAll))
        = (none, [Entry.call (Call.PdbGet "ns" "train-1") (some notFoundError)]) :=
  ⟨by decide,
    ((DeletePdb_not_found_is_noop pdbStoreController []
      (trainJob (some CleanPodPolicyAll))).2 notFoundError (by decide) (by decide)
      (by decide)).1⟩

/-- Counterexample to C5 as stated: the existence query fails with a time-out, which is not
a not-found error, and Delete succeeds. DeletePdb records the terminating event, issues the
Delete call and returns nil: the failure of the query is not surfaced. -/
theorem DeletePdb_get_failure_not_surfaced :
    getTimeoutController.PodDisruptionBudgets.Get [] "ns" "train-1" = some timeoutError
      ∧ IsNotFound timeoutError = false
      ∧ DeletePdb getTimeoutController [] (trainJob (some CleanPodPolicyAll))
        = (none,
            [Entry.call (Call.PdbGet "ns" "train-1") (some timeoutError),
              Entry.event (some (trainJob (some CleanPodPolicyAll))) "Normal" "TFJobTerminated"
                "TFJob is terminated, deleting pdb",
              Entry.call (Call.PdbDelete "ns" "train-1") none,
              Entry.event (some (trainJob (some CleanPodPolicyAll))) "Normal"
                "SuccessfulDeletePdb" "Deleted pdb: train-1"]) := by
  decide

/-- C5, amended: DeletePdb records the terminating event, and issues the Delete call,
exactly when the existence query did not report not-found, that is when the Get returned no
error or an error other than not-found. When the query fails with an error that is not
not-found, exactly one Delete call is issued and the caller receives what that call
decides: nil when it succeeds, the error "unable to delete pdb: ..." built from the Delete
error when it fails. -/
theorem DeletePdb_deletes_unless_not_found (tc : TFJobController) (h : Trace)
    (tfJob : TFJob) :
    (terminatingPdbEvent tfJob ∈ (DeletePdb tc h tfJob).2
        ↔ ¬ ∃ e, tc.PodDisruptionBudgets.Get h tfJob.Namespace tfJob.Name = some e
            ∧ IsNotFound e = true)
      ∧ ((∃ r, Entry.call (Call.PdbDelete tfJob.Namespace tfJob.Name) r
              ∈ (DeletePdb tc h tfJob).2)
        ↔ ¬ ∃ e, tc.PodDisruptionBudgets.Get h tfJob.Namespace tfJob.Name = some e
            ∧ IsNotFound e = true)
      ∧ (∀ e : Error, tc.PodDisruptionBudgets.Get h tfJob.Namespace tfJob.Name = some e →
          IsNotFound e = false →
          ((DeletePdb tc h tfJob).2.filter Entry.isDelete).length = 1
            ∧ (DeletePdb tc h tfJob).1
              = (tc.PodDisruptionBudgets.Delete
                  (h ++ [Entry.call (Call.PdbGet tfJob.Namespace tfJob.Name) (some e),
                    terminatingPdbEvent tfJob])
                  tfJob.Namespace tfJob.Name).map
                fun derr => Error.errorf ("unable to delete pdb: " ++ derr.text)) := by
  refine ⟨?_, ?_, ?_⟩
  · cases hget : tc.PodDisruptionBudgets.Get h tfJob.Namespace tfJob.Name with
    | none =>
      cases hdel : tc.PodDisruptionBudgets.Delete
          (h ++ [Entry.call (Call.PdbGet tfJob.Namespace tfJob.Name) none,
            terminatingPdbEvent tfJob]) tfJob.Namespace tfJob.Name <;>
        simp [DeletePdb, hget, hdel]
    | some e =>
      cases hnf : IsNotFound e
      · cases hdel : tc.PodDisruptionBudgets.Delete
            (h ++ [Entry.call (Call.PdbGet tfJob.Namespace tfJob.Name) (some e),
              terminatingPdbEvent tfJob]) tfJob.Namespace tfJob.Name <;>
          simp [DeletePdb, hget, hnf, hdel]
      · simp [DeletePdb, hget, hnf, terminatingPdbEvent]
  · cases hget : tc.PodDisruptionBudgets.Get h tfJob.Namespace tfJob.Name with
    | none =>
      cases hdel : tc.PodDisruptionBudgets.Delete
          (h ++ [Entry.call (Call.PdbGet tfJob.Namespace tfJob.Name) none,
            terminatingPdbEvent tfJob]) tfJob.Namespace tfJob.Name <;>
        (simp only [terminatingPdbEvent] at hdel
         simp [DeletePdb, hget, hdel, terminatingPdbEvent, Entry.ok])
    | some e =>
      cases hnf : IsNotFound e
      · cases hdel : tc.PodDisruptionBudgets.Delete
            (h ++ [Entry.call (Call.PdbGet tfJob.Namespace tfJob.Name) (some e),
              terminatingPdbEvent tfJob]) tfJob.Namespace tfJob.Name <;>
          (simp only [terminatingPdbEvent] at hdel
           simp [DeletePdb, hget, hnf, hdel, terminatingPdbEvent, Entry.ok])
      · simp [DeletePdb, hget, hnf]
  · intro e hget hnf
    cases hdel : tc.PodDisruptionBudgets.Delete
        (h ++ [Entry.call (Call.PdbGet tfJob.Namespace tfJob.Name) (some e),
          terminatingPdbEvent tfJob]) tfJob.Namespace tfJob.Name <;>
      (simp only [terminatingPdbEvent] at hdel
       simp [DeletePdb, hget, hnf, hdel, terminatingPdbEvent, Entry.ok, Entry.isDelete])

/-- Witness of C5, amended: the time-out of the existence query is followed by one Delete
call, and the caller receives nil because that call succeeds. -/
theorem DeletePdb_deletes_unless_not_found_witness :
    ((DeletePdb getTimeoutController [] (trainJob (some CleanPodPolicyAll))).2.filter
        Entry.isDelete).length = 1
      ∧ (DeletePdb getTimeoutController [] (trainJob (some CleanPodPolicyAll))).1 = none :=
  (DeletePdb_deletes_unless_not_found getTimeoutController []
    (trainJob (some CleanPodPolicyAll))).2.2 timeoutError (by decide) (by decide)

/-! ## Decoding and cache lookup -/

theorem tfJobFromUnstructured_rejected (g : Globals) (un : Unstructured)
    (hbad : (g.FromUnstructured un.Object).2 ≠ none
      ∨ g.ValidateAlphaTwoTFJobSpec (g.FromUnstructured un.Object).1.Spec ≠ none) :
    tfJobFromUnstructured g (Obj.unstructured un)
      = (some (g.FromUnstructured un.Object).1, some ErrFailedMarshal) := by
  unfold tfJobFromUnstructured
  simp only []
  rw [if_pos hbad]

theorem tfJobFromUnstructured_accepted (g : Globals) (un : Unstructured)
    (hgood : ¬ ((g.FromUnstructured un.Object).2 ≠ none
      ∨ g.ValidateAlphaTwoTFJobSpec (g.FromUnstructured un.Object).1.Spec ≠ none)) :
    tfJobFromUnstructured g (Obj.unstructured un)
      = (some (g.FromUnstructured un.Object).1, none) := by
  unfold tfJobFromUnstructured
  simp only []
  rw [if_neg hgood]

/-- C8: on an Unstructured input, tfJobFromUnstructured returns ErrFailedMarshal exactly
when the conversion returns an error or validation of the converted spec does, and nil
otherwise; in every case the job returned is non-nil and is the job the conversion filled
in. -/
theorem tfJobFromUnstructured_on_unstructured (g : Globals) (un : Unstructured) :
    ((tfJobFromUnstructured g (Obj.unstructured un)).2 = some ErrFailedMarshal
        ↔ (g.FromUnstructured un.Object).2 ≠ none
          ∨ g.ValidateAlphaTwoTFJobSpec (g.FromUnstructured un.Object).1.Spec ≠ none)
      ∧ ((tfJobFromUnstructured g (Obj.unstructured un)).2 = none
        ↔ ¬ ((g.FromUnstructured un.Object).2 ≠ none
          ∨ g.ValidateAlphaTwoTFJobSpec (g.FromUnstructured un.Object).1.Spec ≠ none))
      ∧ (tfJobFromUnstructured g (Obj.unstructured un)).1
        = some (g.FromUnstructured un.Object).1 := by
  by_cases hbad : (g.FromUnstructured un.Object).2 ≠ none
      ∨ g.ValidateAlphaTwoTFJobSpec (g.FromUnstructured un.Object).1.Spec ≠ none
  · rw [tfJobFromUnstructured_rejected g un hbad]
    simp [hbad]
  · rw [tfJobFromUnstructured_accepted g un hbad]
    simp [hbad]

/-- Witness of C8: a payload without replica specifications converts, fails validation and
comes back with ErrFailedMarshal together with the converted job. -/
theorem tfJobFromUnstructured_on_unstructured_witness :
    tfJobFromUnstructured sampleGlobals (Obj.unstructured noReplicasPayload)
      = (some ⟨"ns", "train-1", ⟨some "All", []⟩, ⟨[]⟩⟩, some ErrFailedMarshal) :=
  Prod.ext (tfJobFromUnstructured_on_unstructured sampleGlobals noReplicasPayload).2.2
    ((tfJobFromUnstructured_on_unstructured sampleGlobals noReplicasPayload).1.2
      (by decide))

/-- C6: GetTFJobFromKey returns (nil, ErrGetFromKey) whenever GetByKey returns an error,
whatever its exists flag, and (nil, ErrNotExists) whenever GetByKey returns no error with
exists = false. In both cases the only entry recorded is the cache read: the decoder is not
called. Against an empty cache every lookup returns ErrNotExists, not ErrGetFromKey. -/
theorem GetTFJobFromKey_read_failed_or_absent (g : Globals) (tc : TFJobController)
    (h : Trace) (key : String) :
    (∀ (obj : Obj) (found : Bool) (e : Error),
        tc.TfJobInformer.GetByKey h key = (obj, found, some e) →
        GetTFJobFromKey g tc h key
            = ((none, some ErrGetFromKey), [Entry.call (Call.GetByKey key) (some e)])
          ∧ (GetTFJobFromKey g tc h key).2.filter Entry.isDecode = [])
      ∧ (∀ obj : Obj, tc.TfJobInformer.GetByKey h key = (obj, false, none) →
        GetTFJobFromKey g tc h key
            = ((none, some ErrNotExists), [Entry.call (Call.GetByKey key) none])
          ∧ (GetTFJobFromKey g tc h key).2.filter Entry.isDecode = [])
      ∧ (tc.TfJobInformer = emptyIndexer →
        GetTFJobFromKey g tc h key
            = ((none, some ErrNotExists), [Entry.call (Call.GetByKey key) none])
          ∧ (GetTFJobFromKey g tc h key).1.2 ≠ some ErrGetFromKey) := by
  have habsent : ∀ obj : Obj, tc.TfJobInformer.GetByKey h key = (obj, false, none) →
      GetTFJobFromKey g tc h key
        = ((none, some ErrNotExists), [Entry.call (Call.GetByKey key) none]) := by
    intro obj hget
    simp [GetTFJobFromKey, hget]
  refine ⟨?_, ?_, ?_⟩
  · intro obj found e hget
    have hrun : GetTFJobFromKey g tc h key
        = ((none, some ErrGetFromKey), [Entry.call (Call.GetByKey key) (some e)]) := by
      simp [GetTFJobFromKey, hget]
    rw [hrun]
    simp [Entry.isDecode]
  · intro obj hget
    rw [habsent obj hget]
    simp [Entry.isDecode]
  · intro hempty
    have hget : tc.TfJobInformer.GetByKey h key = (Obj.nil, false, none) := by
      rw [hempty]
      rfl
    rw [habsent Obj.nil hget]
    simp

/-- Witness of C6: the lookup of "ns/missing" against the empty cache. -/
theorem GetTFJobFromKey_read_failed_or_absent_witness :
    GetTFJobFromKey sampleGlobals okController [] "ns/missing"
      = ((none, some ErrNotExists), [Entry.call (Call.GetByKey "ns/missing") none]) :=
  ((GetTFJobFromKey_read_failed_or_absent sampleGlobals okController []
    "ns/missing").2.2 rfl).1

/-- Counterexample to C7 as stated: the cache read succeeds with exists = true and the
cached item is not an Unstructured value. GetTFJobFromKey returns ErrGetFromKey, which is
not ErrFailedMarshal, although the cache read did not fail. -/
theorem GetTFJobFromKey_not_unstructured_is_ErrGetFromKey :
    podCacheController.TfJobInformer.GetByKey [] "ns/train-1"
        = (Obj.other "*v1.Pod", true, none)
      ∧ (GetTFJobFromKey sampleGlobals podCacheController [] "ns/train-1").1
        = (none, some ErrGetFromKey)
      ∧ ErrGetFromKey ≠ ErrFailedMarshal := by
  decide

/-- C7, amended: when the cache read succeeds with exists = true, GetTFJobFromKey returns
(nil, ErrFailedMarshal) if the cached item is an Unstructured value whose conversion fails
or whose converted spec fails validation, and (nil, ErrGetFromKey) if the cached item is
not an Unstructured value. GetTFJobFromKey returns ErrGetFromKey only when the cache read
itself failed or when it succeeded with exists = true on an item that is not an
Unstructured value. -/
theorem GetTFJobFromKey_undecodable (g : Globals) (tc : TFJobController) (h : Trace)
    (key : String) :
    (∀ un : Unstructured,
        tc.TfJobInformer.GetByKey h key = (Obj.unstructured un, true, none) →
        (g.FromUnstructured un.Object).2 ≠ none
          ∨ g.ValidateAlphaTwoTFJobSpec (g.FromUnstructured un.Object).1.Spec ≠ none →
        (GetTFJobFromKey g tc h key).1 = (none, some ErrFailedMarshal))
      ∧ (∀ obj : Obj, tc.TfJobInformer.GetByKey h key = (obj, true, none) →
        (∀ un : Unstructured, obj ≠ Obj.unstructured un) →
        (GetTFJobFromKey g tc h key).1 = (none, some ErrGetFromKey))
      ∧ ((GetTFJobFromKey g tc h key).1.2 = some ErrGetFromKey →
        (tc.TfJobInformer.GetByKey h key).2.2 ≠ none
          ∨ ((tc.TfJobInformer.GetByKey h key).2.2 = none
            ∧ (tc.TfJobInformer.GetByKey h key).2.1 = true
            ∧ ∀ un : Unstructured,
                (tc.TfJobInformer.GetByKey h key).1 ≠ Obj.unstructured un)) := by
  refine ⟨?_, ?_, ?_⟩
  · intro un hget hbad
    have hdec := tfJobFromUnstructured_rejected g un hbad
    simp [GetTFJobFromKey, hget, hdec]
  · intro obj hget hnot
    have hdec : tfJobFromUnstructured g obj = (none, some ErrGetFromKey) := by
      cases obj with
      | nil => rfl
      | unstructured un => exact absurd rfl (hnot un)
      | other typeName => rfl
    simp [GetTFJobFromKey, hget, hdec]
  · intro hres
    by_cases herr : (tc.TfJobInformer.GetByKey h key).2.2 ≠ none
    · exact Or.inl herr
    · right
      have herr0 : (tc.TfJobInformer.GetByKey h key).2.2 = none := not_not.mp herr
      by_cases hfound : (tc.TfJobInformer.GetByKey h key).2.1 = false
      · simp [GetTFJobFromKey, herr0, hfound] at hres
      · have hfound1 : (tc.TfJobInformer.GetByKey h key).2.1 = true := by
          simpa using hfound
        refine ⟨herr0, hfound1, ?_⟩
        intro un hun
        by_cases hbad : (g.FromUnstructured un.Object).2 ≠ none
            ∨ g.ValidateAlphaTwoTFJobSpec (g.FromUnstructured un.Object).1.Spec ≠ none
        · have hdec := tfJobFromUnstructured_rejected g un hbad
          simp [GetTFJobFromKey, herr0, hfound1, hun, hdec] at hres
        · have hdec := tfJobFromUnstructured_accepted g un hbad
          simp [GetTFJobFromKey, herr0, hfound1, hun, hdec] at hres

/-- Witness of C7, amended: a cache that holds a pod under the key. -/
theorem GetTFJobFromKey_undecodable_witness :
    (GetTFJobFromKey sampleGlobals podCacheController [] "ns/train-1").1
      = (none, some ErrGetFromKey) :=
  (GetTFJobFromKey_undecodable sampleGlobals podCacheController [] "ns/train-1").2.1
    (Obj.other "*v1.Pod") rfl (by intro un hun; cases hun)

/-! ## The add handler -/

/-- C9: for a payload whose conversion or validation fails, AddTFJob records, after the
call of the decoder, exactly one event: a Warning with reason FailedMarshalTFJob against
the job the decoder returned. It makes no enqueue call, applies no defaulting, appends no
condition, and leaves the payload as it was. -/
theorem AddTFJob_undecodable (g : Globals) (un : Unstructured)
    (hbad : (g.FromUnstructured un.Object).2 ≠ none
      ∨ g.ValidateAlphaTwoTFJobSpec (g.FromUnstructured un.Object).1.Spec ≠ none) :
    AddTFJob g (Obj.unstructured un)
        = (Result.returned (Obj.unstructured un),
            [Entry.call (Call.tfJobFromUnstructured (Obj.unstructured un))
                (some ErrFailedMarshal),
              Entry.event (tfJobFromUnstructured g (Obj.unstructured un)).1 EventTypeWarning
                FailedMarshalTFJobReason
                "Failed to unmarshal the object to TFJob object: Failed to marshal the object to TFJob"])
      ∧ (tfJobFromUnstructured g (Obj.unstructured un)).1
        = some (g.FromUnstructured un.Object).1
      ∧ ((AddTFJob g (Obj.unstructured un)).2.filter Entry.isEvent).length = 1
      ∧ ((AddTFJob g (Obj.unstructured un)).2.filter Entry.isEnqueue).length = 0 := by
  have hdec := tfJobFromUnstructured_rejected g un hbad
  have hrun : AddTFJob g (Obj.unstructured un)
      = (Result.returned (Obj.unstructured un),
          [Entry.call (Call.tfJobFromUnstructured (Obj.unstructured un))
              (some ErrFailedMarshal),
            Entry.event (tfJobFromUnstructured g (Obj.unstructured un)).1 EventTypeWarning
              FailedMarshalTFJobReason
              "Failed to unmarshal the object to TFJob object: Failed to marshal the object to TFJob"]) := by
    simp only [AddTFJob, hdec]
    simp only [if_true]
    rfl
  refine ⟨hrun, ?_, ?_, ?_⟩
  · rw [hdec]
  · rw [hrun]
    simp [Entry.isEvent]
  · rw [hrun]
    simp [Entry.isEvent, Entry.isEnqueue]

/-- Witness of C9: the payload without replica specifications. One Warning event against
the converted job, no enqueue, payload unchanged. -/
theorem AddTFJob_undecodable_witness :
    AddTFJob sampleGlobals (Obj.unstructured noReplicasPayload)
      = (Result.returned (Obj.unstructured noReplicasPayload),
          [Entry.call (Call.tfJobFromUnstructured (Obj.unstructured noReplicasPayload))
              (some ErrFailedMarshal),
            Entry.event (some ⟨"ns", "train-1", ⟨some "All", []⟩, ⟨[]⟩⟩) "Warning"
              "FailedMarshalTFJob"
              "Failed to unmarshal the object to TFJob object: Failed to marshal the object to TFJob"]) :=
  (AddTFJob_undecodable sampleGlobals noReplicasPayload (by decide)).1

end TFOperator
